import Mathlib

/-!
# esp32_ymodem: glob matcher, free-space computation and transfer loop

A shallow embedding of `src/main/spiffs_example_main.c` and
`src/components/spiffs_vfs/spiffs_api.c`.

Conventions of the embedding.

* A C `char` is a byte, represented by its unsigned value as a `Nat`.
* A pointer into a NUL-terminated string is the list of bytes from the
  pointed-to position up to (not including) the terminator, so `*p` is
  `peek p` (`0` at the end), `p + 1` is `p.tail`.  Two pointers into the same
  string are equal exactly when the remaining lists have the same length.
* C `int` results are `Nat`/`Int`; `uint32_t` arithmetic is reduced
  modulo `2 ^ 32` explicitly.
* Loops whose termination argument is "the pattern pointer advances" take a
  fuel argument; running out of fuel is `none`.
-/

namespace Ymodem

/-! ## Constants of `spiffs_example_main.c` -/

def FNM_NOMATCH : Nat := 1
def FNM_NOESCAPE : Nat := 0x01
def FNM_PATHNAME : Nat := 0x02
def FNM_PERIOD : Nat := 0x04
def FNM_LEADING_DIR : Nat := 0x08
def FNM_CASEFOLD : Nat := 0x10
def FNM_PREFIX_DIRS : Nat := 0x20
def EOS : Nat := 0

/-- The test `flags & BIT` of the C code, as a boolean. -/
def hasFlag (flags bit : Nat) : Bool := flags &&& bit != 0

/-- The expression `flags & ~FNM_PERIOD` on a 32-bit `int`. -/
def clearPeriod (flags : Nat) : Nat := flags &&& (2 ^ 32 - 1 - FNM_PERIOD)

/-- Dereference `*p` of a string pointer: the terminator is read at the end. -/
def peek (p : List Nat) : Nat := p.headD 0

/-- Pointer equality `p == q` for two pointers into the same string. -/
def ptrEq (p q : List Nat) : Bool := p.length == q.length

/-- The byte `*(string - 1)`, for `string` a position after `stringstart`. -/
def prevChar (string stringstart : List Nat) : Nat :=
  stringstart.getD (stringstart.length - string.length - 1) 0

/-- The libc function `tolower` on an `unsigned char` value in the C locale. -/
def tolower (c : Nat) : Nat := if 65 ≤ c ∧ c ≤ 90 then c + 32 else c

/-- The libc function `strchr(s, c)`: the position of the first `c` in `s`,
`none` for `NULL`. -/
def strchr : List Nat → Nat → Option (List Nat)
  | [], c => if c = EOS then some [] else none
  | x :: rest, c =>
    if x = c then some (x :: rest)
    else if x = EOS then none
    else strchr rest c

/-! ## `rangematch` -/

/-- The statement `if (c == '\\' && !(flags & FNM_NOESCAPE)) c = *pattern++;`
used for both ends of a range: the new `c` and the new pattern pointer. -/
def unescape (flags c : Nat) (pattern : List Nat) : Nat × List Nat :=
  if c = 92 ∧ hasFlag flags FNM_NOESCAPE = false then (peek pattern, pattern.tail)
  else (c, pattern)

/-- The statement `if (flags & FNM_CASEFOLD) c = tolower((unsigned char)c);`. -/
def foldCase (flags c : Nat) : Nat :=
  if hasFlag flags FNM_CASEFOLD = true then tolower c else c

/-- The `for` loop of `rangematch`.  The outer `none` is fuel exhaustion,
`some none` is the `NULL` result, `some (some p)` the returned pattern
pointer. -/
def rangematchLoop : Nat → List Nat → Nat → Nat → Bool → Bool → Option (Option (List Nat))
  | 0, _, _, _, _, _ => none
  | fuel + 1, pattern, test, flags, negate, ok =>
    -- (c = *pattern++) != ']'
    let c := peek pattern
    let pattern := pattern.tail
    if c = 93 then
      -- return (ok == negate ? NULL : pattern);
      some (if ok = negate then none else some pattern)
    else
      let e := unescape flags c pattern
      if e.1 = EOS then some none
      else
        let c := foldCase flags e.1
        let pattern := e.2
        let c2 := peek pattern.tail
        if peek pattern = 45 ∧ c2 ≠ EOS ∧ c2 ≠ 93 then
          -- pattern += 2;
          let e2 := unescape flags c2 pattern.tail.tail
          if e2.1 = EOS then some none
          else
            rangematchLoop fuel e2.2 test flags negate
              (if c ≤ test ∧ test ≤ foldCase flags e2.1 then true else ok)
        else
          rangematchLoop fuel pattern test flags negate (if c = test then true else ok)

/-- The function `rangematch(pattern, test, flags)`. -/
def rangematch (pattern : List Nat) (test flags : Nat) : Option (Option (List Nat)) :=
  let negate : Bool := peek pattern = 33 ∨ peek pattern = 94
  let pattern := if negate then pattern.tail else pattern
  let test := foldCase flags test
  rangematchLoop (pattern.length + 1) pattern test flags negate false

/-! ## `fnmatch` -/

/-- The loop `while (c == '*') c = *++pattern;`, returning the new pointer. -/
def skipStars : List Nat → List Nat
  | [] => []
  | c :: rest => if c = 42 then skipStars rest else c :: rest

/-- The leading-period test shared by the `?` and `*` cases:
`*string == '.' && (flags & FNM_PERIOD) && (string == stringstart ||
((flags & FNM_PATHNAME) && *(string - 1) == '/'))`. -/
def leadingPeriod (string stringstart : List Nat) (flags : Nat) : Bool :=
  peek string == 46 && hasFlag flags FNM_PERIOD &&
    (ptrEq string stringstart ||
      (hasFlag flags FNM_PATHNAME && prevChar string stringstart == 47))

/-- The general-case loop of the `*` case,
`while ((test = *string) != EOS) { if (!rec(string)) return 0; ... ++string; }`,
with the recursive call abstracted as `rec`. -/
def starLoop (rec : List Nat → Option Nat) (pathname : Bool) : List Nat → Option Nat
  | [] => some FNM_NOMATCH
  | test :: rest =>
    if test = EOS then some FNM_NOMATCH
    else
      match rec (test :: rest) with
      | none => none
      | some r =>
        if r = 0 then some 0
        else if test = 47 ∧ pathname = true then some FNM_NOMATCH
        else starLoop rec pathname rest

/-- The body of `fnmatch`: one step of the `for (;;) switch` loop per unit of
fuel; `none` is fuel exhaustion. -/
def fnmatchAux : Nat → List Nat → List Nat → List Nat → Nat → Option Nat
  | 0, _, _, _, _ => none
  | fuel + 1, pattern, string, stringstart, flags =>
    -- switch (c = *pattern++)
    let c := peek pattern
    let pattern := pattern.tail
    if c = EOS then
      if hasFlag flags FNM_LEADING_DIR = true ∧ peek string = 47 then some 0
      else if peek string = EOS then some 0 else some FNM_NOMATCH
    else if c = 63 then
      if peek string = EOS then some FNM_NOMATCH
      else if peek string = 47 ∧ hasFlag flags FNM_PATHNAME = true then some FNM_NOMATCH
      else if leadingPeriod string stringstart flags = true then some FNM_NOMATCH
      else fnmatchAux fuel pattern string.tail stringstart flags
    else if c = 42 then
      let pattern := skipStars pattern
      let c := peek pattern
      if leadingPeriod string stringstart flags = true then some FNM_NOMATCH
      else if c = EOS then
        if hasFlag flags FNM_PATHNAME = true then
          (if hasFlag flags FNM_LEADING_DIR = true ∨ strchr string 47 = none then some 0
           else some FNM_NOMATCH)
        else some 0
      else if c = 47 ∧ hasFlag flags FNM_PATHNAME = true then
        match strchr string 47 with
        | none => some FNM_NOMATCH
        | some string => fnmatchAux fuel pattern string stringstart flags
      else
        starLoop (fun s => fnmatchAux fuel pattern s s (clearPeriod flags))
          (hasFlag flags FNM_PATHNAME) string
    else if c = 91 then
      if peek string = EOS then some FNM_NOMATCH
      else if peek string = 47 ∧ hasFlag flags FNM_PATHNAME = true then some FNM_NOMATCH
      else
        match rangematch pattern (peek string) flags with
        | none => none
        | some none => some FNM_NOMATCH
        | some (some pattern) => fnmatchAux fuel pattern string.tail stringstart flags
    else if c = 92 then
      -- if (!(flags & FNM_NOESCAPE)) { if ((c = *pattern++) == EOS) { c = '\\'; --pattern; } }
      -- break;
      let pattern :=
        if hasFlag flags FNM_NOESCAPE = false then
          (if peek pattern = EOS then pattern else pattern.tail)
        else pattern
      fnmatchAux fuel pattern string stringstart flags
    else
      if c = peek string then fnmatchAux fuel pattern string.tail stringstart flags
      else if hasFlag flags FNM_CASEFOLD = true ∧ tolower c = tolower (peek string) then
        fnmatchAux fuel pattern string.tail stringstart flags
      else if hasFlag flags FNM_PREFIX_DIRS = true ∧ peek string = EOS ∧
          ((c = 47 ∧ ptrEq string stringstart = false) ∨
            (string.length + 1 = stringstart.length ∧ peek stringstart = 47)) then some 0
      else some FNM_NOMATCH

/-- The function `fnmatch(pattern, string, flags)`; every iteration and every
recursive call consumes a pattern byte, so the pattern length bounds the fuel. -/
def fnmatch (pattern string : List Nat) (flags : Nat) : Option Nat :=
  fnmatchAux (pattern.length + 1) pattern string string flags

/-! ## The shell-glob language (reference for bracket-free, escape-free patterns) -/

/-- The shell-glob language of a pattern, after the wording of the
specification: each `?` stands for exactly one arbitrary character, each `*`
for an arbitrary (possibly empty) run of characters, and every other character
for itself. -/
inductive GlobLang : List Nat → List Nat → Prop
  | done : GlobLang [] []
  | one (x : Nat) (p s : List Nat) : GlobLang p s → GlobLang (63 :: p) (x :: s)
  | run (r p s : List Nat) : GlobLang p s → GlobLang (42 :: p) (r ++ s)
  | self (c : Nat) (p s : List Nat) : c ≠ 63 → c ≠ 42 → GlobLang p s →
      GlobLang (c :: p) (c :: s)

/-- A result of `fnmatch` agrees with a proposition: `0` when it holds,
`FNM_NOMATCH` when it does not. -/
def Agrees (res : Option Nat) (prop : Prop) : Prop :=
  (prop → res = some 0) ∧ (¬ prop → res = some FNM_NOMATCH)

/-! ## `spiffs_fs_stat` and `fs_free` -/

/-- The function `spiffs_fs_stat(&total, &used)`.  The argument is the outcome
of `esp_spiffs_info`: `some (total, used)` when it returns `ESP_OK`, `none` when
it fails. -/
def spiffs_fs_stat (info : Option (Nat × Nat)) : Nat × Nat :=
  match info with
  | some (total, used) => (total % 2 ^ 32, used % 2 ^ 32)
  | none => (0, 0)

/-- The function `fs_free()`: `tot - used - 16384` in `uint32_t` arithmetic. -/
def fs_free (info : Option (Nat × Nat)) : Nat :=
  let (tot, used) := spiffs_fs_stat info
  (((tot : Int) - (used : Int) - 16384) % 2 ^ 32).toNat

/-! ## The transfer loop of `app_main` -/

/-- What the external collaborators answer during one pass of the
`while (1)` loop of `app_main`. -/
structure CycleEnv where
  /-- The outcome of `esp_spiffs_info` inside `fs_free`. -/
  spiffs_info : Option (Nat × Nat)
  /-- Whether `fopen(fname, "wb")` returns a non-null handle. -/
  fopen_wb : Bool
  /-- The result of `Ymodem_Receive`. -/
  ymodem_receive : Int
  /-- Whether `fopen(fname, "rb")` returns a non-null handle. -/
  fopen_rb : Bool
  /-- The result of `Ymodem_Transmit`. -/
  ymodem_transmit : Int

/-- The externally visible calls made by the loop body, in program order. -/
inductive Action
  | open_wb (nfile : Int)
  | receive (max_fsize : Nat)
  | list
  | remove (nfile : Int)
  | delay (ms : Nat)
  | open_rb (nfile : Int)
  | transmit (nfile : Int) (size : Int)
  | log_full (max_fsize : Nat)
  deriving DecidableEq, Repr

/-- The local variables of `app_main` that live across loop passes. -/
structure LoopVars where
  rec_res : Int
  trans_res : Int
  nfile : Int
  deriving DecidableEq, Repr

/-- The values the locals have when the loop is entered:
`rec_res = -1, trans_res = -1, nfile = 1`. -/
def initVars : LoopVars := { rec_res := -1, trans_res := -1, nfile := 1 }

/-- One pass of the `while (1)` loop of `app_main`.  `maxFileSize` is the
constant `MAX_FILE_SIZE` (`CONFIG_SPIFFS_SIZE - 0x2000`, a build-time constant). -/
def cycle (maxFileSize : Nat) (v : LoopVars) (env : CycleEnv) : LoopVars × List Action :=
  let max_fsize := fs_free env.spiffs_info
  if max_fsize > 16 * 1024 then
    let max_fsize := if max_fsize > maxFileSize then maxFileSize else max_fsize
    -- ffd = fopen(fname, "wb"); if (ffd) { rec_res = Ymodem_Receive(...); ... }
    let rec_res := if env.fopen_wb then env.ymodem_receive else v.rec_res
    let acts1 : List Action :=
      if env.fopen_wb then
        [Action.open_wb v.nfile, Action.receive max_fsize] ++
          (if rec_res > 0 then [Action.list] else [Action.remove v.nfile])
      else [Action.open_wb v.nfile]
    -- vTaskDelay(5000 / portTICK_RATE_MS); if (rec_res > 0) { ... }
    let sent : Bool := decide (rec_res > 0) && env.fopen_rb
    let trans_res := if sent then env.ymodem_transmit else v.trans_res
    let acts2 : List Action :=
      if rec_res > 0 then
        [Action.open_rb v.nfile] ++
          (if env.fopen_rb then [Action.transmit v.nfile rec_res] else [])
      else []
    ({ rec_res := rec_res, trans_res := trans_res, nfile := v.nfile + 1 },
      acts1 ++ [Action.delay 5000] ++ acts2 ++ [Action.delay 30000])
  else
    (v, [Action.log_full max_fsize, Action.delay 30000])

/-- The loop run for as many passes as there are environments, from given
values of the locals; the result lists the calls of each pass. -/
def runCycles (maxFileSize : Nat) : LoopVars → List CycleEnv → List (List Action)
  | _, [] => []
  | v, env :: envs =>
    let r := cycle maxFileSize v env
    r.2 :: runCycles maxFileSize r.1 envs

/-! ## Basic facts about pointers -/

theorem peek_nil : peek [] = 0 := rfl

theorem peek_cons (c : Nat) (p : List Nat) : peek (c :: p) = c := rfl

theorem tail_length_lt_of_peek {p : List Nat} (h : peek p ≠ 0) :
    p.tail.length < p.length := by
  cases p with
  | nil => exact absurd rfl h
  | cons c t => simp

theorem skipStars_length_le (p : List Nat) : (skipStars p).length ≤ p.length := by
  induction p with
  | nil => simp [skipStars]
  | cons c t ih =>
    simp only [skipStars]
    split_ifs
    · exact Nat.le_trans ih (by simp)
    · exact Nat.le_refl _

theorem hasFlag_zero (bit : Nat) : hasFlag 0 bit = false := by
  simp [hasFlag]

/-! ## Bracket expressions -/

theorem strchr_slash_none (s : List Nat) (h0 : 0 ∉ s) :
    strchr s 47 = none ↔ 47 ∉ s := by
  induction s with
  | nil => simp [strchr, EOS]
  | cons x t ih =>
    have hx : x ≠ 0 := fun h => h0 (by simp [h])
    have ht : 0 ∉ t := fun h => h0 (List.mem_cons_of_mem _ h)
    simp only [strchr, EOS]
    by_cases h : x = 47
    · simp [h]
    · simp only [h, hx, if_false, ih ht, List.mem_cons]
      constructor
      · rintro h1 (h2 | h2)
        · exact h h2.symm
        · exact h1 h2
      · exact fun h1 h2 => h1 (Or.inr h2)

theorem bracket_range (lo hi s : Nat) (hlo : 0 < lo)
    (hle : lo ≤ hi) (hs : s ≠ 0)
    (h1 : lo ≠ 93 ∧ lo ≠ 92 ∧ lo ≠ 33 ∧ lo ≠ 94)
    (h2 : hi ≠ 93 ∧ hi ≠ 92) :
    fnmatch [91, lo, 45, hi, 93] [s] 0
        = some (if lo ≤ s ∧ s ≤ hi then 0 else FNM_NOMATCH) ∧
      fnmatch [91, 33, lo, 45, hi, 93] [s] 0
        = some (if lo ≤ s ∧ s ≤ hi then FNM_NOMATCH else 0) ∧
      fnmatch [91, 94, lo, 45, hi, 93] [s] 0
        = some (if lo ≤ s ∧ s ≤ hi then FNM_NOMATCH else 0) := by
  obtain ⟨a1, a2, a3, a4⟩ := h1
  obtain ⟨b1, b2⟩ := h2
  have hlo0 : lo ≠ 0 := by omega
  have hhi0 : hi ≠ 0 := by omega
  refine ⟨?_, ?_, ?_⟩
  · by_cases hin : lo ≤ s ∧ s ≤ hi
    · simp [fnmatch, fnmatchAux, rangematch, rangematchLoop, peek, hasFlag_zero, unescape,
        foldCase, EOS, FNM_NOMATCH, hs, a1, a2, a3, a4, b1, b2, hlo0, hhi0, hin]
    · simp [fnmatch, fnmatchAux, rangematch, rangematchLoop, peek, hasFlag_zero, unescape,
        foldCase, EOS, FNM_NOMATCH, hs, a1, a2, a3, a4, b1, b2, hlo0, hhi0, hin]
  · by_cases hin : lo ≤ s ∧ s ≤ hi
    · simp [fnmatch, fnmatchAux, rangematch, rangematchLoop, peek, hasFlag_zero, unescape,
        foldCase, EOS, FNM_NOMATCH, hs, a1, a2, a3, a4, b1, b2, hlo0, hhi0, hin]
    · simp [fnmatch, fnmatchAux, rangematch, rangematchLoop, peek, hasFlag_zero, unescape,
        foldCase, EOS, FNM_NOMATCH, hs, a1, a2, a3, a4, b1, b2, hlo0, hhi0, hin]
  · by_cases hin : lo ≤ s ∧ s ≤ hi
    · simp [fnmatch, fnmatchAux, rangematch, rangematchLoop, peek, hasFlag_zero, unescape,
        foldCase, EOS, FNM_NOMATCH, hs, a1, a2, a3, a4, b1, b2, hlo0, hhi0, hin]
    · simp [fnmatch, fnmatchAux, rangematch, rangematchLoop, peek, hasFlag_zero, unescape,
        foldCase, EOS, FNM_NOMATCH, hs, a1, a2, a3, a4, b1, b2, hlo0, hhi0, hin]

theorem escape_skips (x : Nat) (hx : x ≠ 0) :
    fnmatch [92, x] [x] 0 = some FNM_NOMATCH ∧ fnmatch [92, x] [] 0 = some 0 ∧
      fnmatch [92] [92] 0 = some FNM_NOMATCH ∧ fnmatch [92] [] 0 = some 0 := by
  refine ⟨?_, ?_, by decide, by decide⟩
  · simp [fnmatch, fnmatchAux, peek, hasFlag_zero, EOS, FNM_NOMATCH, hx]
  · simp [fnmatch, fnmatchAux, peek, hasFlag_zero, EOS, FNM_NOMATCH, hx]

theorem star_pathname (S : List Nat) (h0 : 0 ∉ S) :
    fnmatch [42] S FNM_PATHNAME = some (if 47 ∈ S then FNM_NOMATCH else 0) ∧
      fnmatch [42] S (FNM_PATHNAME ||| FNM_LEADING_DIR) = some 0 := by
  have e1 : hasFlag FNM_PATHNAME FNM_PERIOD = false := by decide
  have e2 : hasFlag FNM_PATHNAME FNM_PATHNAME = true := by decide
  have e3 : hasFlag FNM_PATHNAME FNM_LEADING_DIR = false := by decide
  have e4 : hasFlag (FNM_PATHNAME ||| FNM_LEADING_DIR) FNM_PERIOD = false := by decide
  have e5 : hasFlag (FNM_PATHNAME ||| FNM_LEADING_DIR) FNM_PATHNAME = true := by decide
  have e6 : hasFlag (FNM_PATHNAME ||| FNM_LEADING_DIR) FNM_LEADING_DIR = true := by decide
  constructor
  · simp only [fnmatch, List.length_cons, List.length_nil, fnmatchAux, peek_cons, List.tail_cons,
      skipStars, peek_nil, leadingPeriod, e1, e2, e3, EOS, strchr_slash_none S h0]
    by_cases h : 47 ∈ S <;> simp [h]
  · simp [fnmatch, fnmatchAux, peek, skipStars, leadingPeriod, e4, e5, e6, EOS]

/-! ## Literal patterns -/

theorem tolower_ne_zero {c : Nat} (h : c ≠ 0) : tolower c ≠ 0 := by
  unfold tolower
  split_ifs <;> omega

theorem literal_casefold_aux (P : List Nat) :
    ∀ (fuel : Nat) (S ss : List Nat),
      (∀ c ∈ P, c ≠ 0 ∧ c ≠ 42 ∧ c ≠ 63 ∧ c ≠ 91 ∧ c ≠ 92) → 0 ∉ S → P.length < fuel →
      fnmatchAux fuel P S ss FNM_CASEFOLD
        = some (if P.map tolower = S.map tolower then 0 else FNM_NOMATCH) := by
  have e1 : hasFlag FNM_CASEFOLD FNM_LEADING_DIR = false := by decide
  have e2 : hasFlag FNM_CASEFOLD FNM_CASEFOLD = true := by decide
  have e3 : hasFlag FNM_CASEFOLD FNM_PREFIX_DIRS = false := by decide
  induction P with
  | nil =>
    intro fuel S ss _ h0 hlen
    obtain ⟨f, rfl⟩ : ∃ f, fuel = f + 1 := ⟨fuel - 1, by simp at hlen; omega⟩
    cases S with
    | nil => simp [fnmatchAux, peek, EOS]
    | cons x s =>
      have hx : x ≠ 0 := fun h => h0 (by simp [h])
      simp [fnmatchAux, peek, EOS, e1, hx]
  | cons c t ih =>
    intro fuel S ss hP h0 hlen
    obtain ⟨f, rfl⟩ : ∃ f, fuel = f + 1 := ⟨fuel - 1, by simp at hlen; omega⟩
    have hlen2 : t.length < f := by simpa using hlen
    obtain ⟨c0, c1, c2, c3, c4⟩ := hP c (by simp)
    have hPt : ∀ d ∈ t, d ≠ 0 ∧ d ≠ 42 ∧ d ≠ 63 ∧ d ≠ 91 ∧ d ≠ 92 :=
      fun d hd => hP d (List.mem_cons_of_mem _ hd)
    cases S with
    | nil =>
      have := tolower_ne_zero c0
      have t0 : tolower 0 = 0 := by decide
      simp [fnmatchAux, peek, EOS, e2, e3, c0, c1, c2, c3, c4, t0, this]
    | cons x s =>
      have hs : 0 ∉ s := fun h => h0 (List.mem_cons_of_mem _ h)
      have hrec := ih f s ss hPt hs hlen2
      simp only [fnmatchAux, peek_cons, List.tail_cons, EOS, c0, c1, c2, c3, c4, if_false, e2, e3,
        hrec, List.map_cons, List.cons.injEq]
      by_cases h1 : c = x
      · simp [h1]
      · by_cases h2 : tolower c = tolower x
        · simp [h1, h2]
        · simp [h1, h2]

theorem literal_exact_aux (P : List Nat) :
    ∀ (fuel : Nat) (S ss : List Nat),
      (∀ c ∈ P, c ≠ 0 ∧ c ≠ 42 ∧ c ≠ 63 ∧ c ≠ 91 ∧ c ≠ 92) → 0 ∉ S → P.length < fuel →
      fnmatchAux fuel P S ss 0 = some (if P = S then 0 else FNM_NOMATCH) := by
  induction P with
  | nil =>
    intro fuel S ss _ h0 hlen
    obtain ⟨f, rfl⟩ : ∃ f, fuel = f + 1 := ⟨fuel - 1, by simp at hlen; omega⟩
    cases S with
    | nil => simp [fnmatchAux, peek, EOS]
    | cons x s =>
      have hx : x ≠ 0 := fun h => h0 (by simp [h])
      simp [fnmatchAux, peek, EOS, hasFlag_zero, hx]
  | cons c t ih =>
    intro fuel S ss hP h0 hlen
    obtain ⟨f, rfl⟩ : ∃ f, fuel = f + 1 := ⟨fuel - 1, by simp at hlen; omega⟩
    have hlen2 : t.length < f := by simpa using hlen
    obtain ⟨c0, c1, c2, c3, c4⟩ := hP c (by simp)
    have hPt : ∀ d ∈ t, d ≠ 0 ∧ d ≠ 42 ∧ d ≠ 63 ∧ d ≠ 91 ∧ d ≠ 92 :=
      fun d hd => hP d (List.mem_cons_of_mem _ hd)
    cases S with
    | nil => simp [fnmatchAux, peek, EOS, hasFlag_zero, c0, c1, c2, c3, c4]
    | cons x s =>
      have hs : 0 ∉ s := fun h => h0 (List.mem_cons_of_mem _ h)
      have hrec := ih f s ss hPt hs hlen2
      simp only [fnmatchAux, peek_cons, List.tail_cons, EOS, c0, c1, c2, c3, c4, if_false,
        hasFlag_zero, hrec, List.cons.injEq]
      by_cases h1 : c = x
      · simp [h1]
      · simp [h1]

theorem literal_match (P S : List Nat)
    (hP : ∀ c ∈ P, c ≠ 0 ∧ c ≠ 42 ∧ c ≠ 63 ∧ c ≠ 91 ∧ c ≠ 92)
    (hS : ∀ c ∈ S, c ≠ 0 ∧ c ≠ 42 ∧ c ≠ 63 ∧ c ≠ 91 ∧ c ≠ 92) :
    fnmatch P S FNM_CASEFOLD
        = some (if P.length = S.length ∧ P.map tolower = S.map tolower then 0
            else FNM_NOMATCH) ∧
      fnmatch P S 0 = some (if P = S then 0 else FNM_NOMATCH) := by
  have h0 : 0 ∉ S := fun h => (hS 0 h).1 rfl
  constructor
  · have hlen : P.map tolower = S.map tolower → P.length = S.length := by
      intro h
      have := congrArg List.length h
      simpa using this
    have hiff : (P.length = S.length ∧ P.map tolower = S.map tolower) ↔
        P.map tolower = S.map tolower := ⟨fun h => h.2, fun h => ⟨hlen h, h⟩⟩
    unfold fnmatch
    rw [literal_casefold_aux P _ S S hP h0 (Nat.lt_succ_self _)]
    simp only [hiff]
  · exact literal_exact_aux P _ S S hP h0 (Nat.lt_succ_self _)

/-! ## The glob language: inversion and the laws of `*` -/

theorem GlobLang.inv {P S : List Nat} (h : GlobLang P S) :
    (P = [] ∧ S = []) ∨
    (∃ x p s, P = 63 :: p ∧ S = x :: s ∧ GlobLang p s) ∨
    (∃ r p s, P = 42 :: p ∧ S = r ++ s ∧ GlobLang p s) ∨
    (∃ c p s, c ≠ 63 ∧ c ≠ 42 ∧ P = c :: p ∧ S = c :: s ∧ GlobLang p s) := by
  cases h with
  | done => exact Or.inl ⟨rfl, rfl⟩
  | one x p s h => exact Or.inr (Or.inl ⟨x, p, s, rfl, rfl, h⟩)
  | run r p s h => exact Or.inr (Or.inr (Or.inl ⟨r, p, s, rfl, rfl, h⟩))
  | self c p s h1 h2 h => exact Or.inr (Or.inr (Or.inr ⟨c, p, s, h1, h2, rfl, rfl, h⟩))

theorem globLang_nil (S : List Nat) : GlobLang [] S ↔ S = [] := by
  constructor
  · intro h
    rcases h.inv with ⟨_, h⟩ | ⟨_, _, _, h, _⟩ | ⟨_, _, _, h, _⟩ | ⟨_, _, _, _, _, h, _⟩
    · exact h
    all_goals simp at h
  · rintro rfl
    exact GlobLang.done

theorem globLang_one (p S : List Nat) :
    GlobLang (63 :: p) S ↔ ∃ x s, S = x :: s ∧ GlobLang p s := by
  constructor
  · intro h
    rcases h.inv with ⟨h, _⟩ | ⟨x, q, s, h, hs, hg⟩ | ⟨_, _, _, h, _⟩ | ⟨c, q, s, h1, _, h, _⟩
    · simp at h
    · simp only [List.cons.injEq, true_and] at h
      exact ⟨x, s, hs, h ▸ hg⟩
    · simp at h
    · simp only [List.cons.injEq] at h
      exact absurd h.1.symm h1
  · rintro ⟨x, s, rfl, h⟩
    exact GlobLang.one x p s h

theorem globLang_run (p S : List Nat) :
    GlobLang (42 :: p) S ↔ ∃ r s, S = r ++ s ∧ GlobLang p s := by
  constructor
  · intro h
    rcases h.inv with ⟨h, _⟩ | ⟨_, _, _, h, _⟩ | ⟨r, q, s, h, hs, hg⟩ | ⟨c, q, s, _, h2, h, _⟩
    · simp at h
    · simp at h
    · simp only [List.cons.injEq, true_and] at h
      exact ⟨r, s, hs, h ▸ hg⟩
    · simp only [List.cons.injEq] at h
      exact absurd h.1.symm h2
  · rintro ⟨r, s, rfl, h⟩
    exact GlobLang.run r p s h

theorem globLang_self {c : Nat} (h63 : c ≠ 63) (h42 : c ≠ 42) (p S : List Nat) :
    GlobLang (c :: p) S ↔ ∃ s, S = c :: s ∧ GlobLang p s := by
  constructor
  · intro h
    rcases h.inv with ⟨h, _⟩ | ⟨_, _, _, h, _⟩ | ⟨_, _, _, h, _⟩ | ⟨d, q, s, _, _, h, hs, hg⟩
    · simp at h
    · simp only [List.cons.injEq] at h
      exact absurd h.1 h63
    · simp only [List.cons.injEq] at h
      exact absurd h.1 h42
    · simp only [List.cons.injEq] at h
      obtain ⟨rfl, rfl⟩ := h
      exact ⟨s, hs, hg⟩
  · rintro ⟨s, rfl, h⟩
    exact GlobLang.self c p s h63 h42 h

theorem globLang_run_nil (p : List Nat) : GlobLang (42 :: p) [] ↔ GlobLang p [] := by
  rw [globLang_run]
  constructor
  · rintro ⟨r, s, h, hg⟩
    have := List.append_eq_nil.mp h.symm
    exact this.2 ▸ hg
  · intro h
    exact ⟨[], [], rfl, h⟩

theorem globLang_run_cons (p : List Nat) (x : Nat) (t : List Nat) :
    GlobLang (42 :: p) (x :: t) ↔ GlobLang p (x :: t) ∨ GlobLang (42 :: p) t := by
  constructor
  · intro h
    obtain ⟨r, s, hs, hg⟩ := (globLang_run p _).mp h
    cases r with
    | nil => exact Or.inl (by simpa [hs] using hg)
    | cons y r =>
      simp only [List.cons_append, List.cons.injEq] at hs
      exact Or.inr (hs.2 ▸ GlobLang.run r p s hg)
  · rintro (h | h)
    · exact GlobLang.run [] p _ h
    · obtain ⟨r, s, hs, hg⟩ := (globLang_run p _).mp h
      rw [hs]
      exact GlobLang.run (x :: r) p s hg

theorem globLang_run_run (p S : List Nat) :
    GlobLang (42 :: 42 :: p) S ↔ GlobLang (42 :: p) S := by
  constructor
  · intro h
    obtain ⟨r, s, rfl, hg⟩ := (globLang_run _ _).mp h
    obtain ⟨r2, s2, rfl, hg2⟩ := (globLang_run _ _).mp hg
    rw [← List.append_assoc]
    exact GlobLang.run (r ++ r2) p s2 hg2
  · intro h
    exact GlobLang.run [] _ _ h

theorem globLang_skipStars (p S : List Nat) :
    GlobLang (42 :: skipStars p) S ↔ GlobLang (42 :: p) S := by
  induction p with
  | nil => simp [skipStars]
  | cons c t ih =>
    simp only [skipStars]
    split_ifs with h
    · rw [ih, h, globLang_run_run]
    · rfl

theorem globLang_run_only (S : List Nat) : GlobLang [42] S := by
  have := GlobLang.run S [] [] GlobLang.done
  simpa using this

theorem skipStars_peek (p : List Nat) : peek (skipStars p) ≠ 42 := by
  induction p with
  | nil => simp [skipStars, peek]
  | cons c t ih =>
    simp only [skipStars]
    split_ifs with h
    · exact ih
    · simpa [peek] using h

theorem skipStars_mem (p : List Nat) : ∀ c ∈ skipStars p, c ∈ p := by
  induction p with
  | nil => simp [skipStars]
  | cons c t ih =>
    simp only [skipStars]
    split_ifs with h
    · exact fun d hd => List.mem_cons_of_mem _ (ih d hd)
    · exact fun d hd => hd

/-! ## `fnmatch` without flags decides the glob language -/

theorem Agrees.congr {res : Option Nat} {a b : Prop} (h : a ↔ b) (hb : Agrees res b) :
    Agrees res a :=
  ⟨fun ha => hb.1 (h.mp ha), fun hna => hb.2 (fun hb2 => hna (h.mpr hb2))⟩

theorem agrees_match {prop : Prop} (h : prop) : Agrees (some 0) prop :=
  ⟨fun _ => rfl, fun hn => absurd h hn⟩

theorem agrees_nomatch {prop : Prop} (h : ¬ prop) : Agrees (some FNM_NOMATCH) prop :=
  ⟨fun hp => absurd hp h, fun _ => rfl⟩

theorem starLoop_agrees (rec : List Nat → Option Nat) (q : List Nat)
    (hq : ¬ GlobLang q [])
    (hrec : ∀ s, 0 ∉ s → Agrees (rec s) (GlobLang q s)) :
    ∀ S, 0 ∉ S → Agrees (starLoop rec false S) (GlobLang (42 :: q) S) := by
  intro S
  induction S with
  | nil =>
    intro _
    exact agrees_nomatch (fun h => hq ((globLang_run_nil q).mp h))
  | cons x t ih =>
    intro h0
    have hx : x ≠ 0 := fun h => h0 (by simp [h])
    have ht : 0 ∉ t := fun h => h0 (List.mem_cons_of_mem _ h)
    by_cases hg : GlobLang q (x :: t)
    · have := (hrec _ h0).1 hg
      simp only [starLoop, EOS, hx, if_false, this]
      exact agrees_match ((globLang_run_cons q x t).mpr (Or.inl hg))
    · have := (hrec _ h0).2 hg
      simp only [starLoop, EOS, hx, if_false, this, FNM_NOMATCH]
      simp only [Nat.one_ne_zero, if_false, Bool.false_eq_true, and_false]
      refine Agrees.congr ?_ (ih ht)
      rw [globLang_run_cons]
      exact ⟨fun h => h.resolve_left hg, Or.inr⟩

theorem fnmatchAux_glob (fuel : Nat) :
    ∀ (P S ss : List Nat), (∀ c ∈ P, c ≠ 0 ∧ c ≠ 91 ∧ c ≠ 92) → 0 ∉ S → P.length < fuel →
      Agrees (fnmatchAux fuel P S ss 0) (GlobLang P S) := by
  have cp : clearPeriod 0 = 0 := by decide
  induction fuel with
  | zero => intro P _ _ _ _ h; exact absurd h (Nat.not_lt_zero _)
  | succ fuel ih =>
    intro P S ss hP h0 hlen
    cases P with
    | nil =>
      cases S with
      | nil =>
        simp only [fnmatchAux, peek_nil, EOS, hasFlag_zero]
        exact agrees_match GlobLang.done
      | cons x s =>
        have hx : x ≠ 0 := fun h => h0 (by simp [h])
        simp only [fnmatchAux, peek_nil, peek_cons, EOS, hasFlag_zero, hx]
        simp only [Bool.false_eq_true, false_and, if_false, if_true]
        exact agrees_nomatch (by simp [globLang_nil])
    | cons c t =>
      have hlen2 : t.length < fuel := by simpa using hlen
      obtain ⟨c0, c91, c92⟩ := hP c (by simp)
      have hPt : ∀ d ∈ t, d ≠ 0 ∧ d ≠ 91 ∧ d ≠ 92 :=
        fun d hd => hP d (List.mem_cons_of_mem _ hd)
      by_cases h63 : c = 63
      · subst h63
        cases S with
        | nil =>
          simp only [fnmatchAux, peek_nil, peek_cons, EOS]
          simp only [if_true, if_false, Nat.succ_ne_zero]
          exact agrees_nomatch (by simp [globLang_one])
        | cons x s =>
          have hx : x ≠ 0 := fun h => h0 (by simp [h])
          have hs : 0 ∉ s := fun h => h0 (List.mem_cons_of_mem _ h)
          simp only [fnmatchAux, peek_cons, List.tail_cons, EOS, hasFlag_zero, leadingPeriod, hx]
          simp only [Bool.false_eq_true, and_false, Bool.and_false, Bool.false_and, if_false,
            if_true, Nat.succ_ne_zero]
          refine Agrees.congr ?_ (ih t s ss hPt hs hlen2)
          rw [globLang_one]
          constructor
          · rintro ⟨y, u, h, hg⟩
            simp only [List.cons.injEq] at h
            exact h.2 ▸ hg
          · exact fun hg => ⟨x, s, rfl, hg⟩
      by_cases h42 : c = 42
      · subst h42
        have hsk : ∀ d ∈ skipStars t, d ≠ 0 ∧ d ≠ 91 ∧ d ≠ 92 :=
          fun d hd => hPt d (skipStars_mem t d hd)
        have hskl : (skipStars t).length < fuel :=
          Nat.lt_of_le_of_lt (skipStars_length_le t) hlen2
        simp only [fnmatchAux, peek_cons, List.tail_cons, EOS, hasFlag_zero, leadingPeriod, cp]
        simp only [Bool.false_eq_true, and_false, Bool.and_false, Bool.false_and, if_false,
          Nat.succ_ne_zero]
        refine Agrees.congr (globLang_skipStars t S).symm ?_
        have hpk := skipStars_peek t
        generalize skipStars t = q at hsk hskl hpk
        cases q with
        | nil =>
          simp only [peek_nil, if_true]
          exact agrees_match (globLang_run_only S)
        | cons d q =>
          have hd := hsk d (by simp)
          have hd42 : d ≠ 42 := by simpa [peek] using hpk
          simp only [peek_cons, hd.1, if_false]
          refine starLoop_agrees _ (d :: q) ?_ (fun s hs => ih (d :: q) s s hsk hs hskl) S h0
          by_cases hd63 : d = 63
          · subst hd63
            simp [globLang_one]
          · simp [globLang_self hd63 hd42]
      cases S with
      | nil =>
        simp only [fnmatchAux, peek_nil, peek_cons, EOS, hasFlag_zero, c0, h63, h42, c91, c92]
        simp only [Bool.false_eq_true, false_and, and_false, if_false]
        exact agrees_nomatch (by simp [globLang_self h63 h42])
      | cons x s =>
        have hs : 0 ∉ s := fun h => h0 (List.mem_cons_of_mem _ h)
        simp only [fnmatchAux, peek_cons, List.tail_cons, EOS, hasFlag_zero, c0, h63, h42, c91,
          c92]
        simp only [Bool.false_eq_true, false_and, and_false, if_false]
        by_cases hcx : c = x
        · subst hcx
          simp only [if_true]
          refine Agrees.congr ?_ (ih t s ss hPt hs hlen2)
          rw [globLang_self h63 h42]
          constructor
          · rintro ⟨u, h, hg⟩
            simp only [List.cons.injEq, true_and] at h
            exact h ▸ hg
          · exact fun hg => ⟨s, rfl, hg⟩
        · simp only [hcx, if_false]
          refine agrees_nomatch ?_
          simp only [globLang_self h63 h42, List.cons.injEq]
          rintro ⟨u, ⟨h, _⟩, _⟩
          exact hcx h.symm

theorem fnmatch_glob (P S : List Nat) (hP : ∀ c ∈ P, c ≠ 0 ∧ c ≠ 91 ∧ c ≠ 92)
    (hS : 0 ∉ S) :
    (fnmatch P S 0 = some 0 ↔ GlobLang P S) ∧
      (¬ GlobLang P S → fnmatch P S 0 = some FNM_NOMATCH) := by
  have h := fnmatchAux_glob (P.length + 1) P S S hP hS (Nat.lt_succ_self _)
  refine ⟨⟨fun hm => ?_, h.1⟩, h.2⟩
  by_contra hn
  have := h.2 hn
  unfold fnmatch at hm
  rw [hm] at this
  simp [FNM_NOMATCH] at this


/-! ## A bracket expression that is never closed, after a prefix -/

/-- Claim C1: with no flags set, for every pattern `P` without `[` and without
backslash and every candidate `S` (both NUL-free, as C strings are),
`fnmatch(P, S, 0)` returns `0` (MATCH) exactly when `S` is in the shell-glob
language of `P`, and returns `FNM_NOMATCH` otherwise. -/
theorem C1_fnmatch_decides_glob (P S : List Nat)
    (hP : ∀ c ∈ P, c ≠ 0 ∧ c ≠ 91 ∧ c ≠ 92) (hS : 0 ∉ S) :
    (fnmatch P S 0 = some 0 ↔ GlobLang P S) ∧
      (¬ GlobLang P S → fnmatch P S 0 = some FNM_NOMATCH) :=
  fnmatch_glob P S hP hS

theorem C1_fnmatch_decides_glob_witness :
    (∀ c ∈ [97, 42, 63, 98], c ≠ 0 ∧ c ≠ 91 ∧ c ≠ 92) ∧ 0 ∉ [97, 120, 121, 122, 98] ∧
      ((fnmatch [97, 42, 63, 98] [97, 120, 121, 122, 98] 0 = some 0 ↔
          GlobLang [97, 42, 63, 98] [97, 120, 121, 122, 98]) ∧
        (¬ GlobLang [97, 42, 63, 98] [97, 120, 121, 122, 98] →
          fnmatch [97, 42, 63, 98] [97, 120, 121, 122, 98] 0 = some FNM_NOMATCH)) :=
  ⟨by decide, by decide,
    C1_fnmatch_decides_glob [97, 42, 63, 98] [97, 120, 121, 122, 98] (by decide) (by decide)⟩

/-- Claim C2 (the code departs from it): `fs_free` computes `tot - used - 16384`
in unsigned 32-bit arithmetic without a guard, so for total = 100000 and
used = 90000 it returns the wrapped value 4294960912 instead of 0; for
total = 100000 and used = 50000 it returns 33616. -/
theorem C2_fs_free_wraps :
    fs_free (some (100000, 90000)) = 4294960912 ∧
      fs_free (some (100000, 90000)) ≠ 0 ∧
      fs_free (some (100000, 50000)) = 33616 := by
  decide

/-- Claim C3 (the code departs from it): when the space query fails,
`spiffs_fs_stat` yields total = 0 and used = 0, `fs_free` wraps to
4294950912, which exceeds the 16 KiB threshold, and so the loop pass opens the
slot file for writing and invokes the receive operation with the size
ceiling `MAX_FILE_SIZE` (when that is below the wrapped value). -/
theorem C3_failed_query_still_receives (maxFileSize : Nat) (v : LoopVars)
    (recv trans : Int) (rb : Bool) :
    spiffs_fs_stat none = (0, 0) ∧ fs_free none = 4294950912 ∧
      (cycle maxFileSize v
          { spiffs_info := none, fopen_wb := true, ymodem_receive := recv,
            fopen_rb := rb, ymodem_transmit := trans }).2.take 2
        = [Action.open_wb v.nfile, Action.receive (min maxFileSize 4294950912)] := by
  have h : fs_free none = 4294950912 := by decide
  refine ⟨rfl, h, ?_⟩
  simp only [cycle, h]
  by_cases hm : 4294950912 > maxFileSize
  · have : min maxFileSize 4294950912 = maxFileSize := by omega
    simp [hm, this]
  · have : min maxFileSize 4294950912 = 4294950912 := by omega
    simp [hm, this]

/-- Claim C4: with no flags set, for bytes `lo ≤ hi` (neither being `]`,
backslash, `-`, `!` or `^`) and a one-character candidate `s`, the pattern
`[lo-hi]` matches exactly when `lo ≤ s ≤ hi` as unsigned bytes, and the
patterns `[!lo-hi]` and `[^lo-hi]` match exactly when `s` is outside that
range; the other outcome is `FNM_NOMATCH`. -/
theorem C4_bracket_range (lo hi s : Nat) (hlo : 0 < lo) (hle : lo ≤ hi) (hs : s ≠ 0)
    (h1 : lo ≠ 93 ∧ lo ≠ 92 ∧ lo ≠ 45 ∧ lo ≠ 33 ∧ lo ≠ 94)
    (h2 : hi ≠ 93 ∧ hi ≠ 92 ∧ hi ≠ 45 ∧ hi ≠ 33 ∧ hi ≠ 94) :
    fnmatch [91, lo, 45, hi, 93] [s] 0
        = some (if lo ≤ s ∧ s ≤ hi then 0 else FNM_NOMATCH) ∧
      fnmatch [91, 33, lo, 45, hi, 93] [s] 0
        = some (if lo ≤ s ∧ s ≤ hi then FNM_NOMATCH else 0) ∧
      fnmatch [91, 94, lo, 45, hi, 93] [s] 0
        = some (if lo ≤ s ∧ s ≤ hi then FNM_NOMATCH else 0) :=
  bracket_range lo hi s hlo hle hs ⟨h1.1, h1.2.1, h1.2.2.2.1, h1.2.2.2.2⟩ ⟨h2.1, h2.2.1⟩

theorem C4_bracket_range_witness :
    fnmatch [91, 97, 45, 99, 93] [98] 0 = some (if 97 ≤ 98 ∧ 98 ≤ 99 then 0 else FNM_NOMATCH) ∧
      fnmatch [91, 33, 97, 45, 99, 93] [98] 0
        = some (if 97 ≤ 98 ∧ 98 ≤ 99 then FNM_NOMATCH else 0) ∧
      fnmatch [91, 94, 97, 45, 99, 93] [98] 0
        = some (if 97 ≤ 98 ∧ 98 ≤ 99 then FNM_NOMATCH else 0) :=
  C4_bracket_range 97 99 98 (by decide) (by decide) (by decide) (by decide) (by decide)

/-- Claim C6 (the code departs from it): with escaping enabled, the backslash
case reads the escaped byte and then leaves the switch without comparing it, so
for every byte `x` the pattern `\x` does not match the candidate `x` and does
match the empty candidate; likewise the pattern consisting of a lone backslash
does not match a backslash and does match the empty candidate. -/
theorem C6_escape_consumes_nothing (x : Nat) (hx : x ≠ 0) :
    fnmatch [92, x] [x] 0 = some FNM_NOMATCH ∧ fnmatch [92, x] [] 0 = some 0 ∧
      fnmatch [92] [92] 0 = some FNM_NOMATCH ∧ fnmatch [92] [] 0 = some 0 :=
  escape_skips x hx

theorem C6_escape_consumes_nothing_witness :
    fnmatch [92, 120] [120] 0 = some FNM_NOMATCH ∧ fnmatch [92, 120] [] 0 = some 0 ∧
      fnmatch [92] [92] 0 = some FNM_NOMATCH ∧ fnmatch [92] [] 0 = some 0 :=
  C6_escape_consumes_nothing 120 (by decide)

/-- Claim C7: for a pattern `P` and a candidate `S` without `*`, `?`, `[` and
backslash (and NUL-free), with only `FNM_CASEFOLD` set `fnmatch` returns `0`
exactly when `P` and `S` have the same length and are equal after lower-casing
every byte, and with no flags exactly when `P = S`; otherwise `FNM_NOMATCH`.
In particular "ABC" matches "abc" with the flag and not without. -/
theorem C7_literal_casefold (P S : List Nat)
    (hP : ∀ c ∈ P, c ≠ 0 ∧ c ≠ 42 ∧ c ≠ 63 ∧ c ≠ 91 ∧ c ≠ 92)
    (hS : ∀ c ∈ S, c ≠ 0 ∧ c ≠ 42 ∧ c ≠ 63 ∧ c ≠ 91 ∧ c ≠ 92) :
    fnmatch P S FNM_CASEFOLD
        = some (if P.length = S.length ∧ P.map tolower = S.map tolower then 0
            else FNM_NOMATCH) ∧
      fnmatch P S 0 = some (if P = S then 0 else FNM_NOMATCH) :=
  literal_match P S hP hS

theorem C7_literal_casefold_witness :
    fnmatch [65, 66, 67] [97, 98, 99] FNM_CASEFOLD = some 0 ∧
      fnmatch [65, 66, 67] [97, 98, 99] 0 = some FNM_NOMATCH := by
  have h := C7_literal_casefold [65, 66, 67] [97, 98, 99] (by decide) (by decide)
  exact ⟨h.1.trans (by decide), h.2.trans (by decide)⟩

/-- Claim C8: for every (NUL-free) candidate `S`, `fnmatch("*", S, flags)` with
`flags = FNM_PATHNAME` returns `0` exactly when `S` contains no `/` and
`FNM_NOMATCH` otherwise, and with `flags = FNM_PATHNAME | FNM_LEADING_DIR` it
returns `0`. -/
theorem C8_star_pathname (S : List Nat) (h0 : 0 ∉ S) :
    fnmatch [42] S FNM_PATHNAME = some (if 47 ∈ S then FNM_NOMATCH else 0) ∧
      fnmatch [42] S (FNM_PATHNAME ||| FNM_LEADING_DIR) = some 0 :=
  star_pathname S h0

theorem C8_star_pathname_witness :
    0 ∉ [97, 47, 98] ∧
      fnmatch [42] [97, 47, 98] FNM_PATHNAME
        = some (if 47 ∈ [97, 47, 98] then FNM_NOMATCH else 0) ∧
      fnmatch [42] [97, 47, 98] (FNM_PATHNAME ||| FNM_LEADING_DIR) = some 0 :=
  ⟨by decide, C8_star_pathname [97, 47, 98] (by decide)⟩

/-- Claim C9 (the code departs from it): with `FNM_PATHNAME | FNM_PERIOD`, the
pattern `*a/?` matches the candidate `a/.`, whose `.` directly follows a `/`:
the recursive trial of the `*` case runs with `FNM_PERIOD` cleared.  Without
the recursion the rule is kept: `a/?` and `*/?` do not match `a/.`. -/
theorem C9_period_after_slash_matched :
    fnmatch [42, 97, 47, 63] [97, 47, 46] (FNM_PATHNAME ||| FNM_PERIOD) = some 0 ∧
      fnmatch [97, 47, 63] [97, 47, 46] (FNM_PATHNAME ||| FNM_PERIOD) = some FNM_NOMATCH ∧
      fnmatch [42, 47, 63] [97, 47, 46] (FNM_PATHNAME ||| FNM_PERIOD) = some FNM_NOMATCH := by
  decide

/-- Claim C10 (the code departs from it): `rec_res` keeps its value across
loop passes, so after a pass that received 100 bytes, a pass in which opening
the slot for writing fails (no receive is invoked) still opens the slot for
reading and invokes the transmit operation with the stale byte count 100. -/
theorem C10_stale_receive_result_is_sent (maxFileSize : Nat) :
    (runCycles maxFileSize initVars
        [{ spiffs_info := some (1000000, 0), fopen_wb := true, ymodem_receive := 100,
           fopen_rb := true, ymodem_transmit := 0 },
         { spiffs_info := some (1000000, 4096), fopen_wb := false, ymodem_receive := 0,
           fopen_rb := true, ymodem_transmit := 0 }]).drop 1
      = [[Action.open_wb 2, Action.delay 5000, Action.open_rb 2, Action.transmit 2 100,
          Action.delay 30000]] := by
  have h1 : fs_free (some (1000000, 0)) = 983616 := by decide
  have h2 : fs_free (some (1000000, 4096)) = 979520 := by decide
  simp [runCycles, cycle, h1, h2, initVars]

end Ymodem
